import Mathlib

/-!
Shallow embedding of the ryder-client protocol engine
(class RyderSerial in src/src/index.ts): the request queue (the train),
the Idle/Sending/Reading state machine, the frame parser serial_data,
the watchdog timer, the lock arbiter, and the queue scheduler next.
Every completion-sink invocation (resolve or reject of an exchange) is
recorded in a completions log, and every emitted event in an events log,
so that ordering and exactly-once properties can be stated.
-/

namespace RyderClient

/-- Engine state: STATE_IDLE / STATE_SENDING / STATE_READING. -/
inductive EState
  | idle
  | sending
  | reading
deriving DecidableEq, Repr

/-- Error kinds surfaced through an exchange rejection.
device code stands for the response_errors table entries 246..255
(RESPONSE_ERROR_NOT_IMPLEMENTED .. RESPONSE_ERROR_UNKNOWN_COMMAND). -/
inductive ErrK
  | lockedErr
  | watchdogErr
  | clearedErr
  | disconnected
  | unknownResponse
  | transport
  | device (code : Nat)
deriving DecidableEq, Repr

/-- Result delivered to an exchange completion sink (resolve or reject). -/
inductive Outcome
  | ok (status : Nat)
  | payload (bytes : List Nat)
  | err (e : ErrK)
deriving DecidableEq, Repr

/-- Events emitted by the engine. -/
inductive Ev
  | lockedEv
  | waitUserConfirm
  | closeEv
  | errorEv
deriving DecidableEq, Repr

/-- One slot of the lock arbiter array.  The source pushes the function
Promise.resolve as a truthy placeholder for an immediately granted lock,
and the pending resolver of a queued waiter otherwise. -/
inductive LockSlot
  | placeholder
  | waiter (i : Nat)
deriving DecidableEq, Repr

/-- One queue (train) entry: the TrainEntry tuple
of the source, with an identity exId standing for the completion sink. -/
structure TrainEntry where
  data : List Nat
  exId : Nat
  prev_was_escape : Bool
  output_buffer : List Nat
deriving DecidableEq, Repr

/-- The whole engine state.  threw records an uncaught JavaScript
exception escaping an event handler, after which the process is dead. -/
structure Engine where
  train : List TrainEntry
  state : EState
  locks : List LockSlot
  watchdog : Bool
  serialOpen : Bool
  rejectOnLocked : Bool
  completions : List (Nat × Outcome)
  events : List Ev
  lockLog : List Nat
  threw : Bool
deriving DecidableEq, Repr

/-- RyderSerial.next: when Idle with a non-empty train, dispatch the head.
If the serial port is not open, the head is rejected with ERROR_DISCONNECTED
and the whole train is replaced by the empty array, so every entry behind
the head is dropped without its sink being invoked (the TODO at the
corresponding source line points at issue 4 for exactly this). -/
def next (s : Engine) : Engine :=
  if s.threw then s
  else if s.state = EState.idle then
    match s.train with
    | [] => s
    | e :: _ =>
      if s.serialOpen then
        { s with state := EState.sending, watchdog := true }
      else
        { s with
          train := [],
          completions := s.completions ++ [(e.exId, Outcome.err ErrK.disconnected)] }
  else s

/-- RyderSerial.send: when the port is open, enqueue a fresh entry at the
tail, or at the head when prepend is set, then call next.  When the port is
not open the returned promise is rejected immediately and no entry is
enqueued, so the engine state is unchanged. -/
def send (bytes : List Nat) (prepend : Bool) (i : Nat) (s : Engine) : Engine :=
  if s.threw then s
  else if s.serialOpen then
    let e : TrainEntry :=
      { data := bytes, exId := i, prev_was_escape := false, output_buffer := [] }
    next { s with train := if prepend then e :: s.train else s.train ++ [e] }
  else s

/-- The byte loop of serial_data in Reading state: escape decoding into the
head entry output buffer, terminated by OUTPUT_END (5) which resolves the
head with the accumulated buffer and advances.  The empty-train arm models
the TypeError the source would throw dereferencing train[0]; it is
unreachable from reachable engine states. -/
def readLoop : List Nat → Engine → Engine
  | [], s => s
  | b :: rest, s =>
    match s.train with
    | [] => { s with threw := true }
    | e :: tl =>
      if e.prev_was_escape then
        readLoop rest { s with
          train := { e with
            prev_was_escape := false,
            output_buffer := e.output_buffer ++ [b] } :: tl }
      else if b = 6 then
        readLoop rest { s with train := { e with prev_was_escape := true } :: tl }
      else if b = 5 then
        next { s with
          train := tl,
          state := EState.idle,
          completions := s.completions ++ [(e.exId, Outcome.payload e.output_buffer)] }
      else
        readLoop rest { s with
          train := { e with
            prev_was_escape := false,
            output_buffer := e.output_buffer ++ [b] } :: tl }

/-- RyderSerial.serial_data, the frame parser entry point, translated branch
by branch from the source.  In Idle the delivery is discarded.  Otherwise the
watchdog is cleared; in Sending the first byte is classified (LOCKED before
the terminal statuses, exactly as in the source); terminal statuses shift and
resolve the head and re-feed the remainder recursively; OUTPUT_BEGIN moves to
Reading and the rest of the delivery is decoded by readLoop, which re-arms
the watchdog; WAIT_USER_CONFIRM emits its event and re-feeds the remainder;
error and unknown bytes reject the head, set Idle, and re-feed the remainder
(with the state already Idle, so the re-fed remainder is discarded).  The
LOCKED branch with rejectOnLocked models the TypeError the source throws:
its loop calls unshift with no argument, a no-op returning the length, and
then destructures the out-of-bounds element train[length], which is
undefined. -/
def serial_data : List Nat → Engine → Engine
  | d, s =>
    if s.threw then s
    else if s.state = EState.idle then s
    else
      let s1 := { s with watchdog := false }
      match s1.train with
      | [] => s1
      | e :: tl =>
        if s1.state = EState.sending then
          match d with
          | [] =>
            next { s1 with
              train := tl,
              state := EState.idle,
              completions := s1.completions ++ [(e.exId, Outcome.err ErrK.unknownResponse)] }
          | b :: rest =>
            if b = 11 then
              if s1.rejectOnLocked then { s1 with threw := true }
              else { s1 with events := s1.events ++ [Ev.lockedEv] }
            else if b = 1 ∨ b = 2 ∨ b = 3 then
              let s2 := { s1 with
                train := tl,
                completions := s1.completions ++ [(e.exId, Outcome.ok b)] }
              if rest = [] then next { s2 with state := EState.idle }
              else serial_data rest s2
            else if b = 4 then
              readLoop rest { s1 with state := EState.reading, watchdog := true }
            else if b = 10 then
              let s2 := { s1 with events := s1.events ++ [Ev.waitUserConfirm] }
              if rest = [] then s2 else serial_data rest s2
            else
              let s2 := { s1 with
                train := tl,
                state := EState.idle,
                completions := s1.completions ++
                  [(e.exId, Outcome.err
                    (if 246 ≤ b ∧ b ≤ 255 then ErrK.device b
                     else ErrK.unknownResponse))] }
              if rest = [] then next s2 else serial_data rest s2
        else
          readLoop d { s1 with watchdog := true }

/-- The body of the serial_watchdog timer callback. -/
def serial_watchdog (s : Engine) : Engine :=
  match s.train with
  | [] => s
  | e :: tl =>
    next { s with
      train := tl,
      state := EState.idle,
      completions := s.completions ++ [(e.exId, Outcome.err ErrK.watchdogErr)] }

/-- The watchdog timer firing: only possible while armed, and the single-shot
timer is consumed by firing. -/
def watchdog_fire (s : Engine) : Engine :=
  if s.threw then s
  else if s.watchdog then serial_watchdog { s with watchdog := false } else s

/-- RyderSerial.serial_error: emit the error event, reject and shift the head
if any, disarm the watchdog, go Idle and advance. -/
def serial_error (s : Engine) : Engine :=
  if s.threw then s
  else
    let s0 := { s with events := s.events ++ [Ev.errorEv] }
    let s1 :=
      match s0.train with
      | [] => s0
      | e :: tl =>
        { s0 with
          train := tl,
          completions := s0.completions ++ [(e.exId, Outcome.err ErrK.transport)] }
    next { s1 with watchdog := false, state := EState.idle }

/-- RyderSerial.clear: disarm the watchdog, reject every pending entry with
ERROR_CLEARED, empty the train, set Idle and release every lock (every truthy
slot is invoked, which resolves the waiters and is a no-op on placeholders). -/
def clearAll (s : Engine) : Engine :=
  if s.threw then s
  else
    { s with
      watchdog := false,
      completions := s.completions ++
        s.train.map (fun e => (e.exId, Outcome.err ErrK.clearedErr)),
      train := [],
      state := EState.idle,
      lockLog := s.lockLog ++ s.locks.filterMap
        (fun l => match l with
          | LockSlot.placeholder => none
          | LockSlot.waiter i => some i),
      locks := [] }

/-- RyderSerial.lock: with an empty arbiter array the lock is granted at once
(the returned promise is already resolved, recorded in lockLog) and the
truthy function Promise.resolve is pushed as a placeholder; otherwise the
pending resolver of the new waiter is pushed. -/
def lock (i : Nat) (s : Engine) : Engine :=
  if s.locks = [] then
    { s with locks := [LockSlot.placeholder], lockLog := s.lockLog ++ [i] }
  else
    { s with locks := s.locks ++ [LockSlot.waiter i] }

/-- RyderSerial.unlock: shift the first slot and invoke it.  Because the
placeholder Promise.resolve is truthy, the compensating second shift in the
source (written for the historical falsy placeholder) never runs, and
invoking the placeholder resolves no waiter. -/
def unlock (s : Engine) : Engine :=
  match s.locks with
  | [] => s
  | LockSlot.placeholder :: restL => { s with locks := restL }
  | LockSlot.waiter i :: restL =>
    { s with locks := restL, lockLog := s.lockLog ++ [i] }

/-- The transport close event arriving from the serial port: isOpen becomes
false and the close event is emitted; the handler touches no queue state. -/
def linkDown (s : Engine) : Engine :=
  { s with serialOpen := false, events := s.events ++ [Ev.closeEv] }

/-- esc_encode: insert ESCAPE (6) before every payload byte equal to
OUTPUT_END (5) or ESCAPE (6). -/
def escEncode : List Nat → List Nat
  | [] => []
  | b :: rest => (if b = 5 ∨ b = 6 then [6, b] else [b]) ++ escEncode rest

/-- The engine right after construction and a successful port open. -/
def initEngine (rol : Bool) : Engine :=
  { train := [], state := EState.idle, locks := [], watchdog := false,
    serialOpen := true, rejectOnLocked := rol, completions := [],
    events := [], lockLog := [], threw := false }

/-- The engine operations: enqueue (send), dispatch (next), an inbound
delivery, a watchdog fire, a transport error, clear. -/
inductive Step : Engine → Engine → Prop
  | enqueue (bytes : List Nat) (p : Bool) (i : Nat) {s : Engine} :
      Step s (send bytes p i s)
  | dispatch {s : Engine} : Step s (next s)
  | deliver (d : List Nat) {s : Engine} : Step s (serial_data d s)
  | fire {s : Engine} : Step s (watchdog_fire s)
  | fault {s : Engine} : Step s (serial_error s)
  | clearStep {s : Engine} : Step s (clearAll s)

/-- States reachable from a freshly constructed engine by engine operations. -/
inductive Reachable (rol : Bool) : Engine → Prop
  | init : Reachable rol (initEngine rol)
  | step {s t : Engine} : Reachable rol s → Step s t → Reachable rol t

/-- Concrete state for the payload round-trip witness: one exchange at the
head, engine Reading into an empty output buffer. -/
def sW1 : Engine :=
  { initEngine false with
    state := EState.reading,
    watchdog := true,
    train := [{ data := [31, 0], exId := 7, prev_was_escape := false, output_buffer := [] }] }

/-- Concrete trace for the dropped-exchange bug: three sends are queued
(the first in flight), the link drops, then the watchdog fires. -/
def sC2 : Engine :=
  watchdog_fire (linkDown (send [12] false 3 (send [11] false 2
    (send [10] false 1 (initEngine false)))))

/-- Two queued exchanges with the first in flight. -/
def sAB : Engine := send [31] false 2 (send [30] false 1 (initEngine false))

/-- sAB after a third exchange is enqueued with prepend while the first is
still in flight. -/
def sC3 : Engine := send [32] true 3 sAB

/-- Two queued exchanges with the first in flight, for the packed-reply
comparison. -/
def sC4 : Engine := send [21] false 2 (send [20] false 1 (initEngine false))

/-- Three queued exchanges with the first in flight, rejectOnLocked set. -/
def sC5 : Engine :=
  send [12] false 3 (send [11] false 2 (send [10] false 1 (initEngine true)))

/-- One exchange in flight, rejectOnLocked clear. -/
def sC6 : Engine := send [1] false 1 (initEngine false)

/-- One exchange in flight, for the wait-user-confirm witness. -/
def sW8 : Engine := send [13] false 4 (initEngine false)

/-- Reachable state violating the quiescence invariant: one send, then the
packed delivery of a terminal byte followed by a trailing byte. -/
def sBadC9 : Engine := serial_data [1, 1] (send [2] false 1 (initEngine false))

/-- An Idle engine with junk in every component, for the discard witness. -/
def sW10 : Engine :=
  { initEngine false with
    train := [{ data := [9], exId := 9, prev_was_escape := true, output_buffer := [1] }],
    locks := [LockSlot.waiter 5],
    lockLog := [4] }

/-- The auxiliary invariant for the quiescence claim: whenever the engine
is Reading, the watchdog is armed and the train is non-empty. -/
def ReadInv (s : Engine) : Prop :=
  s.state = EState.reading → (s.watchdog = true ∧ ¬ s.train = [])

/-! ## Helper lemmas -/

theorem next_of_ne_idle {s : Engine} (h : ¬ s.state = EState.idle) : next s = s := by
  by_cases ht : s.threw <;> simp [next, ht, h]

theorem next_of_empty {s : Engine} (h : s.train = []) : next s = s := by
  by_cases ht : s.threw
  · simp [next, ht]
  · by_cases hi : s.state = EState.idle <;> simp [next, ht, hi, h]

theorem next_idle_cons {s : Engine} {e : TrainEntry} {tl : List TrainEntry}
    (hthrew : s.threw = false) (hst : s.state = EState.idle)
    (htr : s.train = e :: tl) (hopen : s.serialOpen = true) :
    next s = { s with state := EState.sending, watchdog := true } := by
  simp [next, hthrew, hst, htr, hopen]

/-- A terminal status byte alone: shift and resolve the head, go Idle,
advance. -/
theorem sd_terminal {s : Engine} {e : TrainEntry} {tl : List TrainEntry} {t : Nat}
    (hthrew : s.threw = false) (hst : s.state = EState.sending)
    (htr : s.train = e :: tl) (ht : t = 1 ∨ t = 2 ∨ t = 3) :
    serial_data [t] s =
      next { s with
        train := tl,
        state := EState.idle,
        watchdog := false,
        completions := s.completions ++ [(e.exId, Outcome.ok t)] } := by
  obtain ⟨tr, st, lks, wd, so, rol, comps, evs, llog, thr⟩ := s
  simp only at hthrew hst htr
  subst hthrew hst htr
  rcases ht with rfl | rfl | rfl <;> (rw [serial_data]; simp)

/-! ## Claim theorems -/

/-- C10: a delivery arriving while the engine is Idle is discarded: the
queue, state, lock list, watchdog and every other component are unchanged. -/
theorem C10_idle_discard (d : List Nat) (s : Engine) (hst : s.state = EState.idle) :
    serial_data d s = s := by
  rw [serial_data]
  by_cases ht : s.threw <;> simp [ht, hst]

/-- C10 witness: a three-byte delivery at a concrete Idle engine with a
non-empty queue, a held lock and junk in the head entry changes nothing. -/
theorem C10_idle_discard_witness : serial_data [1, 2, 3] sW10 = sW10 :=
  C10_idle_discard [1, 2, 3] sW10 rfl

/-- C2: the claim that every pending send future completes exactly once
fails on the code.  Concrete failing trace: exchanges 1, 2, 3 queued with 1
in flight, the link drops, the watchdog fires.  The dispatcher rejects only
the new head (exchange 2) with Disconnected and replaces the whole train by
the empty array, so exchange 3 is removed from the queue without its
completion sink ever being invoked. -/
theorem C2_dropped_exchange_eval :
    sC2.train = [] ∧
    sC2.completions =
      [(1, Outcome.err ErrK.watchdogErr), (2, Outcome.err ErrK.disconnected)] := by
  decide

/-- C3 counterexample: with exchange 1 in flight and exchange 2 queued,
prepending exchange 3 puts it ahead of the in-flight head, so the next
terminal reply from the device completes exchange 3, not exchange 1 —
refuting that the in-flight exchange is never displaced and that the
completion order is 1, 3, 2. -/
theorem C3_counterexample :
    (serial_data [1] sC3).completions = [(3, Outcome.ok 1)] := by
  decide

/-- C4 counterexample: with exchanges 1 and 2 queued (1 in flight), the
packed delivery of the error byte 254 followed by the OK byte produces a
different completion sequence than delivering the two bytes separately:
the error branch sets the state to Idle before re-feeding, so the packed
remainder is discarded, while separate deliveries dispatch exchange 2 and
then resolve it. -/
theorem C4_counterexample :
    (serial_data [254, 1] sC4).completions ≠
      (serial_data [1] (serial_data [254] sC4)).completions := by
  decide

/-- C5: the claim that LOCKED with reject_on_locked set fails every queued
exchange with Locked, clears the queue, emits the locked event and returns
to Idle fails on the code: the rejection loop calls unshift with no
argument (a no-op returning the length) and then destructures the
out-of-bounds element, which is undefined, so a TypeError is thrown.  No
exchange is rejected, the queue is untouched, no locked event is emitted,
and the state remains Sending. -/
theorem C5_locked_throws_eval :
    serial_data [11] sC5 = { sC5 with watchdog := false, threw := true } := by
  decide

/-- C7: the claim that the unlock by holder k resolves lock number k+1
fails on the code.  After lock 1 (granted at once) and lock 2 (queued), the
first unlock shifts the truthy placeholder and invokes it — a no-op — so
lock 2 is still pending; only a second unlock resolves it. -/
theorem C7_lock_offbyone_eval :
    (unlock (lock 2 (lock 1 (initEngine false)))).lockLog = [1] ∧
    (unlock (lock 2 (lock 1 (initEngine false)))).locks = [LockSlot.waiter 2] ∧
    (unlock (unlock (lock 2 (lock 1 (initEngine false))))).lockLog = [1, 2] := by
  decide

/-- C6 counterexample: with reject_on_locked clear and one exchange in
flight, the delivery LOCKED followed by OK does not parse the remainder:
the source returns right after emitting the locked event, so no completion
happens and the state stays Sending — refuting that parsing continues as if
the LOCKED byte had been consumed (which would have resolved the head with
the OK byte). -/
theorem C6_counterexample :
    (serial_data [11, 1] sC6).completions = [] ∧
    (serial_data [11, 1] sC6).state = EState.sending ∧
    (serial_data [11, 1] sC6).train = sC6.train := by
  decide

/-- C9 counterexample: a reachable state with the watchdog disarmed and no
exchange in flight whose state is not Idle: after one send, the packed
delivery of a terminal byte with a trailing byte resolves the only exchange
and then re-feeds the remainder with an empty train, leaving the engine
stuck in Sending with an empty queue and the watchdog disarmed. -/
theorem C9_counterexample :
    Reachable false sBadC9 ∧ sBadC9.watchdog = false ∧ sBadC9.train = [] ∧
    ¬ sBadC9.state = EState.idle := by
  refine ⟨?_, by decide, by decide, by decide⟩
  exact Reachable.step (Reachable.step Reachable.init (Step.enqueue [2] false 1))
    (Step.deliver [1, 1])

theorem next_preserves_of_open {s : Engine} (hopen : s.serialOpen = true) :
    (next s).completions = s.completions ∧ (next s).train = s.train := by
  by_cases ht : s.threw
  · simp [next, ht]
  · by_cases hi : s.state = EState.idle
    · cases htr : s.train with
      | nil => simp [next, ht, hi, htr]
      | cons e tl => simp [next, ht, hi, htr, hopen]
    · simp [next, ht, hi]

/-- C6 (amended): with reject_on_locked clear, a delivery starting with
LOCKED (11) while Sending emits the locked event and returns at once: the
head stays in flight, the remainder of the delivery is discarded without
being parsed, and the watchdog is left disarmed. -/
theorem C6_locked_stops (s : Engine) (e : TrainEntry) (tl : List TrainEntry)
    (rest : List Nat)
    (hthrew : s.threw = false) (hst : s.state = EState.sending)
    (htr : s.train = e :: tl) (hrol : s.rejectOnLocked = false) :
    serial_data (11 :: rest) s =
      { s with watchdog := false, events := s.events ++ [Ev.lockedEv] } := by
  obtain ⟨tr, st, lks, wd, so, rol, comps, evs, llog, thr⟩ := s
  simp only at hthrew hst htr hrol
  subst hthrew hst htr hrol
  rw [serial_data]
  simp

/-- C6 witness: the amended behavior at the concrete state with one
exchange in flight and delivery LOCKED then OK. -/
theorem C6_locked_stops_witness :
    serial_data [11, 1] sC6 =
      { sC6 with watchdog := false, events := sC6.events ++ [Ev.lockedEv] } :=
  C6_locked_stops sC6
    { data := [1], exId := 1, prev_was_escape := false, output_buffer := [] }
    [] [1] rfl rfl rfl rfl

/-- C8: a delivery consisting of the single byte WAIT_USER_CONFIRM (10)
while Sending leaves the watchdog disarmed (so a watchdog fire is
impossible no matter how much time passes) and the head in flight, and a
later OK delivery resolves that head exchange. -/
theorem C8_wait_confirm (s : Engine) (e : TrainEntry) (tl : List TrainEntry)
    (hthrew : s.threw = false) (hst : s.state = EState.sending)
    (htr : s.train = e :: tl) (hopen : s.serialOpen = true) :
    serial_data [10] s =
      { s with watchdog := false, events := s.events ++ [Ev.waitUserConfirm] } ∧
    watchdog_fire (serial_data [10] s) = serial_data [10] s ∧
    (serial_data [1] (serial_data [10] s)).completions =
      s.completions ++ [(e.exId, Outcome.ok 1)] ∧
    (serial_data [1] (serial_data [10] s)).train = tl := by
  obtain ⟨tr, st, lks, wd, so, rol, comps, evs, llog, thr⟩ := s
  simp only at hthrew hst htr hopen
  subst hthrew hst htr hopen
  have h1 : serial_data [10]
        (Engine.mk (e :: tl) EState.sending lks wd true rol comps evs llog false) =
      Engine.mk (e :: tl) EState.sending lks false true rol comps
        (evs ++ [Ev.waitUserConfirm]) llog false := by
    rw [serial_data]
    simp
  refine ⟨h1, ?_, ?_, ?_⟩
  · rw [h1]
    simp [watchdog_fire]
  · rw [h1, sd_terminal rfl rfl rfl (Or.inl rfl), (next_preserves_of_open rfl).1]
  · rw [h1, sd_terminal rfl rfl rfl (Or.inl rfl), (next_preserves_of_open rfl).2]

/-- C8 witness: the concrete state with exchange 4 in flight; WAIT then OK. -/
theorem C8_wait_confirm_witness :
    serial_data [10] sW8 =
      { sW8 with watchdog := false, events := sW8.events ++ [Ev.waitUserConfirm] } ∧
    watchdog_fire (serial_data [10] sW8) = serial_data [10] sW8 ∧
    (serial_data [1] (serial_data [10] sW8)).completions =
      sW8.completions ++ [(4, Outcome.ok 1)] ∧
    (serial_data [1] (serial_data [10] sW8)).train = [] :=
  C8_wait_confirm sW8
    { data := [13], exId := 4, prev_was_escape := false, output_buffer := [] }
    [] rfl rfl rfl rfl

/-- One escaped unit of the Reading loop: ESCAPE then a literal byte
appends that byte to the buffer and clears the flag. -/
theorem readLoop_step_esc (b : Nat) (rest : List Nat) (dat : List Nat) (i : Nat)
    (acc : List Nat) (tl : List TrainEntry) (lks : List LockSlot) (so rol : Bool)
    (comps : List (Nat × Outcome)) (evs : List Ev) (llog : List Nat) :
    readLoop (6 :: b :: rest)
      (Engine.mk
        ({ data := dat, exId := i, prev_was_escape := false, output_buffer := acc } :: tl)
        EState.reading lks true so rol comps evs llog false) =
    readLoop rest
      (Engine.mk
        ({ data := dat, exId := i, prev_was_escape := false, output_buffer := acc ++ [b] } :: tl)
        EState.reading lks true so rol comps evs llog false) := by
  conv_lhs => rw [readLoop]
  simp
  conv_lhs => rw [readLoop]
  simp

/-- One plain unit of the Reading loop: a byte that is neither OUTPUT_END
nor ESCAPE is appended to the buffer. -/
theorem readLoop_step_plain (b : Nat) (hb5 : ¬ b = 5) (hb6 : ¬ b = 6)
    (rest : List Nat) (dat : List Nat) (i : Nat)
    (acc : List Nat) (tl : List TrainEntry) (lks : List LockSlot) (so rol : Bool)
    (comps : List (Nat × Outcome)) (evs : List Ev) (llog : List Nat) :
    readLoop (b :: rest)
      (Engine.mk
        ({ data := dat, exId := i, prev_was_escape := false, output_buffer := acc } :: tl)
        EState.reading lks true so rol comps evs llog false) =
    readLoop rest
      (Engine.mk
        ({ data := dat, exId := i, prev_was_escape := false, output_buffer := acc ++ [b] } :: tl)
        EState.reading lks true so rol comps evs llog false) := by
  conv_lhs => rw [readLoop]
  simp [hb5, hb6]

/-- The closing unit of the Reading loop: OUTPUT_END resolves the head with
the accumulated buffer, shifts it, goes Idle and advances. -/
theorem readLoop_finish (dat : List Nat) (i : Nat)
    (acc : List Nat) (tl : List TrainEntry) (lks : List LockSlot) (so rol : Bool)
    (comps : List (Nat × Outcome)) (evs : List Ev) (llog : List Nat) :
    readLoop [5]
      (Engine.mk
        ({ data := dat, exId := i, prev_was_escape := false, output_buffer := acc } :: tl)
        EState.reading lks true so rol comps evs llog false) =
    next (Engine.mk tl EState.idle lks true so rol
      (comps ++ [(i, Outcome.payload acc)]) evs llog false) := by
  conv_lhs => rw [readLoop]
  simp

/-- Decoding of an escape-encoded payload in Reading: running the byte loop
over esc_encode of P followed by OUTPUT_END appends exactly P to the
accumulated buffer, resolves the head with it, and advances. -/
theorem readLoop_escEncode (P : List Nat) (acc dat : List Nat) (i : Nat)
    (tl : List TrainEntry) (lks : List LockSlot) (so rol : Bool)
    (comps : List (Nat × Outcome)) (evs : List Ev) (llog : List Nat) :
    readLoop (escEncode P ++ [5])
      (Engine.mk
        ({ data := dat, exId := i, prev_was_escape := false, output_buffer := acc } :: tl)
        EState.reading lks true so rol comps evs llog false) =
    next (Engine.mk tl EState.idle lks true so rol
      (comps ++ [(i, Outcome.payload (acc ++ P))]) evs llog false) := by
  induction P generalizing acc with
  | nil =>
    have henc : escEncode ([] : List Nat) ++ [5] = [5] := by simp [escEncode]
    rw [henc, readLoop_finish]
    simp
  | cons b P ih =>
    by_cases hb : b = 5 ∨ b = 6
    · have henc : escEncode (b :: P) ++ [5] = 6 :: b :: (escEncode P ++ [5]) := by
        simp [escEncode, hb]
      rw [henc, readLoop_step_esc, ih (acc ++ [b])]
      simp [List.append_assoc]
    · push_neg at hb
      have henc : escEncode (b :: P) ++ [5] = b :: (escEncode P ++ [5]) := by
        simp [escEncode, hb.1, hb.2]
      rw [henc, readLoop_step_plain b hb.1 hb.2, ih (acc ++ [b])]
      simp [List.append_assoc]

/-- C1: for every payload P, feeding the parser in Reading state — the head
exchange having an empty output buffer and prev_was_escape clear, with
nothing queued behind it — the delivery esc_encode of P followed by
OUTPUT_END (5) completes the head exchange with exactly the payload P and
returns the state to Idle. -/
theorem C1_escape_roundtrip (s : Engine) (e : TrainEntry) (P : List Nat)
    (hthrew : s.threw = false) (hst : s.state = EState.reading)
    (htr : s.train = [e]) (hprev : e.prev_was_escape = false)
    (hbuf : e.output_buffer = []) :
    serial_data (escEncode P ++ [5]) s =
      { s with
        train := [],
        state := EState.idle,
        watchdog := true,
        completions := s.completions ++ [(e.exId, Outcome.payload P)] } := by
  obtain ⟨tr, st, lks, wd, so, rol, comps, evs, llog, thr⟩ := s
  obtain ⟨dat, i, pw, buf⟩ := e
  simp only at hthrew hst htr hprev hbuf
  subst hthrew hst htr hprev hbuf
  have hred : serial_data (escEncode P ++ [5])
        (Engine.mk [TrainEntry.mk dat i false []] EState.reading lks wd so rol comps evs
          llog false) =
      readLoop (escEncode P ++ [5])
        (Engine.mk [TrainEntry.mk dat i false []] EState.reading lks true so rol comps evs
          llog false) := by
    rw [serial_data]
    simp
  rw [hred, readLoop_escEncode P [] dat i [] lks so rol comps evs llog]
  rw [next_of_empty rfl]
  simp

/-- C1 witness: the escaped payload of scenario S3 — bytes 5 and 6 encoded
as 06 05 06 06 and closed by 05 — resolves the concrete Reading head with
exactly those two bytes and goes Idle. -/
theorem C1_escape_roundtrip_witness :
    serial_data (escEncode [5, 6] ++ [5]) sW1 =
      { sW1 with
        train := [],
        state := EState.idle,
        watchdog := true,
        completions := sW1.completions ++ [(7, Outcome.payload [5, 6])] } :=
  C1_escape_roundtrip sW1
    { data := [31, 0], exId := 7, prev_was_escape := false, output_buffer := [] }
    [5, 6] rfl rfl rfl rfl rfl

/-- The armed-or-not state of the watchdog on entry to serial_data is
irrelevant outside Idle: the parser clears it first thing. -/
theorem sd_entry_watchdog (d : List Nat) (s : Engine) (hthrew : s.threw = false)
    (hst : ¬ s.state = EState.idle) :
    serial_data d s = serial_data d { s with watchdog := false } := by
  obtain ⟨tr, st, lks, wd, so, rol, comps, evs, llog, thr⟩ := s
  simp only at hthrew
  subst hthrew
  conv_lhs => rw [serial_data]
  conv_rhs => rw [serial_data]
  simp at hst
  simp [hst]

/-- C4 (amended): a delivery whose first byte is OK, SEND_INPUT or REJECTED
(1, 2, 3), arriving while Sending with a further exchange queued behind the
head, produces exactly the same completions and the same final state when
processed whole as when the first byte and the nonempty remainder arrive as
two separate deliveries.  (For error and unknown terminal bytes the source
sets Idle before re-feeding, so a packed remainder is discarded instead;
and if the terminal byte completes the last queued exchange, a packed
remainder strands the engine in Sending — both outside this equivalence.) -/
theorem C4_refeed_equiv (s : Engine) (e1 e2 : TrainEntry) (tl : List TrainEntry)
    (t : Nat) (d : List Nat)
    (hthrew : s.threw = false) (hopen : s.serialOpen = true)
    (hst : s.state = EState.sending) (htr : s.train = e1 :: e2 :: tl)
    (ht : t = 1 ∨ t = 2 ∨ t = 3) (hd : ¬ d = []) :
    serial_data (t :: d) s = serial_data d (serial_data [t] s) := by
  obtain ⟨tr, st, lks, wd, so, rol, comps, evs, llog, thr⟩ := s
  simp only at hthrew hopen hst htr
  subst hthrew hopen hst htr
  have hA : serial_data [t]
        (Engine.mk (e1 :: e2 :: tl) EState.sending lks wd true rol comps evs llog false) =
      Engine.mk (e2 :: tl) EState.sending lks true true rol
        (comps ++ [(e1.exId, Outcome.ok t)]) evs llog false := by
    rw [sd_terminal rfl rfl rfl ht]
    simp [next]
  rw [hA]
  rw [sd_entry_watchdog d (Engine.mk (e2 :: tl) EState.sending lks true true rol
    (comps ++ [(e1.exId, Outcome.ok t)]) evs llog false) rfl (by simp)]
  rcases ht with rfl | rfl | rfl <;>
  · conv_lhs => rw [serial_data]
    simp [hd]

/-- C4 witness: the S8 scenario — exchanges 1 and 2 queued, packed delivery
of two OK bytes equals the two separate deliveries. -/
theorem C4_refeed_equiv_witness :
    serial_data [1, 1] sC4 = serial_data [1] (serial_data [1] sC4) :=
  C4_refeed_equiv sC4
    { data := [20], exId := 1, prev_was_escape := false, output_buffer := [] }
    { data := [21], exId := 2, prev_was_escape := false, output_buffer := [] }
    [] 1 [1] rfl rfl rfl rfl (Or.inl rfl) (by decide)

/-- C3 (amended): with exchange e1 in flight (Sending) and e2 queued,
a send with prepend of a new exchange inserts it at the queue head, ahead
of the in-flight e1.  The next terminal reply from the device therefore
completes the prepended exchange first; e1 is then re-dispatched, and the
completion order over the next three terminal replies is the prepended
exchange, then e1, then e2, ending Idle with an empty queue. -/
theorem C3_prepend_displaces (s : Engine) (e1 e2 : TrainEntry)
    (bytes3 : List Nat) (i3 : Nat) (t1 t2 t3 : Nat)
    (hthrew : s.threw = false) (hopen : s.serialOpen = true)
    (hst : s.state = EState.sending) (htr : s.train = [e1, e2])
    (h1 : t1 = 1 ∨ t1 = 2 ∨ t1 = 3) (h2 : t2 = 1 ∨ t2 = 2 ∨ t2 = 3)
    (h3 : t3 = 1 ∨ t3 = 2 ∨ t3 = 3) :
    (serial_data [t3] (serial_data [t2] (serial_data [t1]
        (send bytes3 true i3 s)))).completions =
      s.completions ++
        [(i3, Outcome.ok t1), (e1.exId, Outcome.ok t2), (e2.exId, Outcome.ok t3)] ∧
    (serial_data [t3] (serial_data [t2] (serial_data [t1]
        (send bytes3 true i3 s)))).state = EState.idle ∧
    (serial_data [t3] (serial_data [t2] (serial_data [t1]
        (send bytes3 true i3 s)))).train = [] := by
  obtain ⟨tr, st, lks, wd, so, rol, comps, evs, llog, thr⟩ := s
  simp only at hthrew hopen hst htr
  subst hthrew hopen hst htr
  rcases h1 with rfl | rfl | rfl <;> rcases h2 with rfl | rfl | rfl <;>
    rcases h3 with rfl | rfl | rfl <;>
    simp [send, next, serial_data, List.append_assoc]

/-- C3 witness: the amended ordering at the concrete state sAB with
exchange 3 prepended while exchange 1 is in flight: completions 3, 1, 2. -/
theorem C3_prepend_displaces_witness :
    (serial_data [1] (serial_data [1] (serial_data [1]
        (send [32] true 3 sAB)))).completions =
      sAB.completions ++ [(3, Outcome.ok 1), (1, Outcome.ok 1), (2, Outcome.ok 1)] ∧
    (serial_data [1] (serial_data [1] (serial_data [1]
        (send [32] true 3 sAB)))).state = EState.idle ∧
    (serial_data [1] (serial_data [1] (serial_data [1]
        (send [32] true 3 sAB)))).train = [] :=
  C3_prepend_displaces sAB
    { data := [30], exId := 1, prev_was_escape := false, output_buffer := [] }
    { data := [31], exId := 2, prev_was_escape := false, output_buffer := [] }
    [32] 3 1 1 1 rfl rfl rfl rfl (Or.inl rfl) (Or.inl rfl) (Or.inl rfl)

/-! ## Preservation of the Reading invariant -/

theorem readInv_of_ne_reading {s : Engine} (h : ¬ s.state = EState.reading) :
    ReadInv s :=
  fun hr => absurd hr h

theorem readInv_next (s : Engine) (h : ReadInv s) : ReadInv (next s) := by
  by_cases ht : s.threw
  · simpa [next, ht] using h
  · by_cases hi : s.state = EState.idle
    · cases htr : s.train with
      | nil => simpa [next, ht, hi, htr] using h
      | cons e tl =>
        by_cases ho : s.serialOpen
        · exact readInv_of_ne_reading (by simp [next, ht, hi, htr, ho])
        · exact readInv_of_ne_reading (by simp [next, ht, hi, htr, ho])
    · simpa [next, ht, hi] using h

theorem readInv_readLoop (bytes : List Nat) :
    ∀ s : Engine, s.state = EState.reading → s.watchdog = true → ¬ s.train = [] →
      ReadInv (readLoop bytes s) := by
  induction bytes with
  | nil =>
    intro s h1 h2 h3
    rw [readLoop]
    exact fun _ => ⟨h2, h3⟩
  | cons b rest ih =>
    rintro ⟨tr, st, lks, wd, so, rol, comps, evs, llog, thr⟩ h1 h2 h3
    have h1x : st = EState.reading := h1
    have h2x : wd = true := h2
    subst h1x h2x
    cases tr with
    | nil => exact absurd rfl h3
    | cons e tl =>
      rw [readLoop]
      by_cases hp : e.prev_was_escape
      · simp [hp]
        exact ih _ rfl rfl (by simp)
      · by_cases hb6 : b = 6
        · simp [hp, hb6]
          exact ih _ rfl rfl (by simp)
        · by_cases hb5 : b = 5
          · simp [hp, hb6, hb5]
            exact readInv_next _ (readInv_of_ne_reading (by simp))
          · simp [hp, hb6, hb5]
            exact ih _ rfl rfl (by simp)

theorem readInv_sd (d : List Nat) :
    ∀ s : Engine, ReadInv s → ReadInv (serial_data d s) := by
  induction d with
  | nil =>
    rintro ⟨tr, st, lks, wd, so, rol, comps, evs, llog, thr⟩ h
    rw [serial_data]
    cases thr with
    | true => simpa using h
    | false =>
      cases st with
      | idle => simpa using h
      | sending =>
        cases tr with
        | nil => simp [ReadInv]
        | cons e tl =>
          simp
          exact readInv_next _ (readInv_of_ne_reading (by simp))
      | reading =>
        obtain ⟨hwd, htrne⟩ := h rfl
        have hwx : wd = true := hwd
        subst hwx
        cases tr with
        | nil => exact absurd rfl htrne
        | cons e tl =>
          simp
          exact readInv_readLoop [] _ rfl rfl (by simp)
  | cons b rest ih =>
    rintro ⟨tr, st, lks, wd, so, rol, comps, evs, llog, thr⟩ h
    rw [serial_data]
    cases thr with
    | true => simpa using h
    | false =>
      cases st with
      | idle => simpa using h
      | sending =>
        cases tr with
        | nil => simp [ReadInv]
        | cons e tl =>
          by_cases hb11 : b = 11
          · apply readInv_of_ne_reading
            by_cases hrol : rol = true <;> simp [hb11, hrol]
          · by_cases hb123 : b = 1 ∨ b = 2 ∨ b = 3
            · by_cases hrest : rest = []
              · simp [hb11, hb123, hrest]
                exact readInv_next _ (readInv_of_ne_reading (by simp))
              · simp [hb11, hb123, hrest]
                exact ih _ (readInv_of_ne_reading (by simp))
            · by_cases hb4 : b = 4
              · simp [hb11, hb123, hb4]
                exact readInv_readLoop rest _ rfl rfl (by simp)
              · by_cases hb10 : b = 10
                · by_cases hrest : rest = []
                  · apply readInv_of_ne_reading
                    simp [hb11, hb123, hb4, hb10, hrest]
                  · simp [hb11, hb123, hb4, hb10, hrest]
                    exact ih _ (readInv_of_ne_reading (by simp))
                · by_cases hrest : rest = []
                  · simp [hb11, hb123, hb4, hb10, hrest]
                    exact readInv_next _ (readInv_of_ne_reading (by simp))
                  · simp [hb11, hb123, hb4, hb10, hrest]
                    exact ih _ (readInv_of_ne_reading (by simp))
      | reading =>
        obtain ⟨hwd, htrne⟩ := h rfl
        have hwx : wd = true := hwd
        subst hwx
        cases tr with
        | nil => exact absurd rfl htrne
        | cons e tl =>
          simp
          exact readInv_readLoop (b :: rest) _ rfl rfl (by simp)

theorem readInv_send (bytes : List Nat) (p : Bool) (i : Nat) (s : Engine)
    (h : ReadInv s) : ReadInv (send bytes p i s) := by
  by_cases ht : s.threw
  · simpa [send, ht] using h
  · by_cases ho : s.serialOpen
    · cases p with
      | false =>
        simp [send, ht, ho]
        refine readInv_next _ (fun hr => ?_)
        obtain ⟨hw, htr⟩ := h hr
        exact ⟨hw, by simp⟩
      | true =>
        simp [send, ht, ho]
        refine readInv_next _ (fun hr => ?_)
        obtain ⟨hw, htr⟩ := h hr
        exact ⟨hw, by simp⟩
    · simpa [send, ht, ho] using h

theorem readInv_fire (s : Engine) (h : ReadInv s) : ReadInv (watchdog_fire s) := by
  by_cases ht : s.threw
  · simpa [watchdog_fire, ht] using h
  · by_cases hw : s.watchdog
    · cases htr : s.train with
      | nil =>
        simp [watchdog_fire, serial_watchdog, ht, hw, htr]
        exact fun hr => absurd htr (h hr).2
      | cons e tl =>
        simp [watchdog_fire, serial_watchdog, ht, hw, htr]
        exact readInv_next _ (readInv_of_ne_reading (by simp))
    · simpa [watchdog_fire, ht, hw] using h

theorem readInv_error (s : Engine) (h : ReadInv s) : ReadInv (serial_error s) := by
  by_cases ht : s.threw
  · simpa [serial_error, ht] using h
  · cases htr : s.train with
    | nil =>
      simp [serial_error, ht, htr]
      exact readInv_next _ (readInv_of_ne_reading (by simp))
    | cons e tl =>
      simp [serial_error, ht, htr]
      exact readInv_next _ (readInv_of_ne_reading (by simp))

theorem readInv_clear (s : Engine) (h : ReadInv s) : ReadInv (clearAll s) := by
  by_cases ht : s.threw
  · simpa [clearAll, ht] using h
  · simp [clearAll, ht, ReadInv]


/-- Every reachable engine state satisfies the Reading invariant. -/
theorem reachable_readInv {rol : Bool} {s : Engine} (h : Reachable rol s) :
    ReadInv s := by
  induction h with
  | init => simp [ReadInv, initEngine]
  | step hr hs ih =>
    cases hs with
    | enqueue bytes p i => exact readInv_send bytes p i _ ih
    | dispatch => exact readInv_next _ ih
    | deliver d => exact readInv_sd d _ ih
    | fire => exact readInv_fire _ ih
    | fault => exact readInv_error _ ih
    | clearStep => exact readInv_clear _ ih

/-- C9 (amended): in every state reachable by engine operations, if the
watchdog is disarmed and no exchange is in flight (the in-flight exchange
being the queue head while the state is not Idle), then the state is Idle
or is Sending with an empty queue — the stranded configuration produced by
re-feeding a packed remainder after the last queued exchange completed. -/
theorem C9_quiescent (rol : Bool) (s : Engine) (h : Reachable rol s)
    (hw : s.watchdog = false)
    (hni : s.state = EState.idle ∨ s.train = []) :
    s.state = EState.idle ∨ (s.state = EState.sending ∧ s.train = []) := by
  rcases hni with h1 | h1
  · exact Or.inl h1
  · cases hst : s.state with
    | idle => exact Or.inl rfl
    | sending => exact Or.inr ⟨rfl, h1⟩
    | reading =>
      have hinv := (reachable_readInv h hst).1
      rw [hw] at hinv
      exact absurd hinv (by simp)

/-- C9 witness: the amended statement applied at the freshly constructed
engine, which is reachable, watchdog disarmed, queue empty. -/
theorem C9_quiescent_witness :
    (initEngine false).state = EState.idle ∨
      ((initEngine false).state = EState.sending ∧ (initEngine false).train = []) :=
  C9_quiescent false (initEngine false) Reachable.init rfl (Or.inl rfl)

end RyderClient
